import Mathlib

/-!
Verification of the message-detection and deduplication pipeline of the
WhatsApp alarm system repository.

The definitions below are shallow embeddings of the JavaScript source:

* `src/unnamed/part_003` (the most recent `MessageWatcher`):
  `_isRecentMessage`, `_isDuplicate`, `_isHashRecent`, `_cleanupOldHashes`,
  `_triggerAlarm`, `_findMatchedKeyword`, `_shouldFilterByChat`,
  `_isChatAllowed`, `handleMessage`, the injected in-page `processNode`,
  and `resetAfterAlarmStop`.
* `src/src/modules/watcher.js`: `isChatAllowed`.
* `src/src/utils/logger.js` (textMatcher part): `normalizeArabicText`,
  `hashText`, `matchKeywords`, `escapeRegex`.

JavaScript numbers holding epoch milliseconds are modelled as `Int`
(all values in play are integral).  A JavaScript value that can be
`null`/`undefined` is modelled as an `Option`.  A JavaScript `Map` keyed by
strings is modelled as an insertion-ordered association list without
duplicate keys, mirroring `Map.set` semantics (update in place, else
append).
-/

namespace WhatsappAlarm

/-! ### Epoch-millisecond helpers -/

/-- `startupFloor.setSeconds(0, 0)` in `_isRecentMessage`: the startup time
floored down to the whole minute.  Time-zone offsets are whole minutes, so
flooring the local seconds/milliseconds fields equals floor division of the
epoch value by 60000. -/
def floorMinute (t : Int) : Int :=
  (Int.ediv t 60000) * 60000

/-- `${timestamp ?? ""}` : a nullable timestamp rendered into a template
string; `null` gives the empty string, a number gives its decimal form. -/
def tsStr (timestamp : Option Int) : String :=
  match timestamp with
  | none => ""
  | some v => toString v

/-! ### Recency filter (`_isRecentMessage`, part_003 lines 407-448) -/

/-- `_isRecentMessage(timestamp)` of the watcher in part_003, with the
ambient `this.startupTime` and `Date.now()` passed explicitly.  Rule order
is exactly the source order: the `timestamp === 0` sentinel is rejected,
then a missing (`null`, i.e. falsy) timestamp, then future timestamps,
then anything at or after the startup time floored to the minute is
accepted, everything else rejected. -/
def isRecentMessage (timestamp : Option Int) (startupTime now : Int) : Bool :=
  match timestamp with
  | none => false
  | some ts =>
    if ts = 0 then false
    else if ts > now then false
    else if ts ≥ floorMinute startupTime then true
    else false

/-! ### Duplicate cache (`hashText`, `_isHashRecent`, `_cleanupOldHashes`,
`_isDuplicate`) -/

/-- UTF-16 code units of a character, as read by `charCodeAt` in
JavaScript: one unit below U+10000, a surrogate pair above. -/
def utf16Units (c : Char) : List Nat :=
  let n := c.toNat
  if n < 0x10000 then [n]
  else [0xD800 + (n - 0x10000) / 0x400, 0xDC00 + (n - 0x10000) % 0x400]

/-- Wrap an integer to a signed 32-bit value, as the JavaScript `&`
operator (`hash & hash`) and `<<` do via ToInt32. -/
def toInt32 (x : Int) : Int :=
  let r := Int.emod x 4294967296
  if r ≥ 2147483648 then r - 4294967296 else r

/-- One step of the rolling hash loop in `hashText`:
`hash = (hash << 5) - hash + charCode; hash = hash & hash`. -/
def hashStep (h : Int) (c : Nat) : Int :=
  toInt32 ((toInt32 (h * 32)) - h + (c : Int))

/-- `hashText(text)` of textMatcher: fold the rolling hash over the UTF-16
code units, then `Math.abs(hash).toString(16)`. -/
def hashText (text : String) : String :=
  let h := (text.data.map utf16Units).flatten.foldl hashStep 0
  String.mk (Nat.toDigits 16 h.natAbs)

/-- The `detectedHashes` JavaScript `Map` from fingerprint hash to the
epoch time it was last recorded. -/
abbrev HashCache := List (String × Int)

/-- `Map.prototype.get`, returning `none` when the key is absent. -/
def mapGet (m : HashCache) (k : String) : Option Int :=
  match m.find? (fun e => e.1 == k) with
  | some e => some e.2
  | none => none

/-- `Map.prototype.set`: replace the value in place when the key exists
(keeping its position), otherwise append the new entry at the end. -/
def mapSet (m : HashCache) (k : String) (v : Int) : HashCache :=
  match m with
  | [] => [(k, v)]
  | e :: rest => if e.1 == k then (k, v) :: rest else e :: mapSet rest k v

/-- `_isHashRecent(hash, currentTime)`: the hash is in the cache and its
recorded time is within the duplicate TTL of the current time. -/
def isHashRecent (ttl : Int) (hashes : HashCache) (hash : String) (currentTime : Int) : Bool :=
  match mapGet hashes hash with
  | none => false
  | some lastDetected => currentTime - lastDetected < ttl

/-- `_cleanupOldHashes()`: when the cache exceeds `MAX_HASH_CACHE_SIZE`
(1000), delete every entry strictly older than the TTL. -/
def cleanupOldHashes (hashes : HashCache) (now ttl : Int) : HashCache :=
  if hashes.length ≤ 1000 then hashes
  else hashes.filter (fun e => ¬ (now - e.2 > ttl))

/-! ### Configuration (`config.detection`) -/

/-- `config.detection.chatFilter`. -/
structure ChatFilterConfig where
  enabled : Bool
  mode : String
  whitelistedChats : List String
deriving DecidableEq

/-- The slice of `config.detection` consumed by the watcher. -/
structure Config where
  enableDuplicateProtection : Bool
  duplicateCacheTTL : Int
  keywords : List String
  caseSensitive : Bool
  wholeWordMatch : Bool
  chatFilter : ChatFilterConfig
deriving DecidableEq

/-- `_isDuplicate(text, timestamp, messageKey)` of part_003, returning the
verdict together with the updated `detectedHashes` cache.  `messageKey` is
an `Option` because the source guards it with the truthiness test
`if (messageKey)`.  Faithfully to the source: the fallback fingerprint
`text|timestamp` is checked first; on a hit the cache is untouched and the
verdict is true.  Otherwise, when a message key exists, the key fingerprint
`messageKey|timestamp|text` is checked, again leaving the cache untouched
on a hit; on a miss both hashes are recorded at the current time and the
opportunistic cleanup runs. -/
def isDuplicate (cfg : Config) (hashes : HashCache) (now : Int)
    (text : String) (timestamp : Option Int) (messageKey : Option String) :
    Bool × HashCache :=
  if ¬ cfg.enableDuplicateProtection then (false, hashes)
  else
    let fallbackHash := hashText (text ++ "|" ++ tsStr timestamp)
    if isHashRecent cfg.duplicateCacheTTL hashes fallbackHash now then (true, hashes)
    else
      match messageKey with
      | some mk =>
        let keyHash := hashText (mk ++ "|" ++ tsStr timestamp ++ "|" ++ text)
        if isHashRecent cfg.duplicateCacheTTL hashes keyHash now then (true, hashes)
        else
          let h1 := mapSet hashes keyHash now
          let h2 := mapSet h1 fallbackHash now
          (false, cleanupOldHashes h2 now cfg.duplicateCacheTTL)
      | none =>
        let h2 := mapSet hashes fallbackHash now
        (false, cleanupOldHashes h2 now cfg.duplicateCacheTTL)

/-! ### Text normalization (`normalizeArabicText`, textMatcher) -/

/-- The characters removed by `normalizeArabicText` after NFC: the tatweel
U+0640, the zero-width and directional marks U+200B through U+200F, and the
soft hyphen U+00AD. -/
def isStrippedChar (c : Char) : Bool :=
  c.toNat = 0x640 ∨ (0x200B ≤ c.toNat ∧ c.toNat ≤ 0x200F) ∨ c.toNat = 0xAD

/-- The three `replace` calls of `normalizeArabicText`, which delete the
characters of `isStrippedChar`. -/
def stripInvisible (s : String) : String :=
  String.mk (s.data.filter (fun c => ¬ isStrippedChar c))

/-- `normalizeArabicText(text)` of textMatcher.  The call
`text.normalize("NFC")` is a platform builtin, so the NFC transform is
taken as the parameter `nfc`; a concrete model of it is given further
below as `nfcM`.  `!text` (the empty string) short-circuits to the empty
string; the `try`/`catch` cannot fire in this pure model. -/
def normalizeArabicText (nfc : String → String) (text : String) : String :=
  if text = "" then ""
  else stripInvisible (nfc text)

/-! ### Keyword matching (`matchKeywords`, textMatcher) -/

/-- The JavaScript regular-expression class `\s` (whitespace). -/
def isJsSpace (c : Char) : Bool :=
  let n := c.toNat
  n = 32 ∨ (9 ≤ n ∧ n ≤ 13) ∨ n = 0xA0 ∨ n = 0x1680 ∨
    (0x2000 ≤ n ∧ n ≤ 0x200A) ∨ n = 0x2028 ∨ n = 0x2029 ∨
    n = 0x202F ∨ n = 0x205F ∨ n = 0x3000 ∨ n = 0xFEFF

/-- The Unicode property class `\p{P}` (general category Punctuation),
covering the Basic Multilingual Plane blocks that can occur in this
repository: ASCII and Latin-1 punctuation, Arabic punctuation, the General
Punctuation block, and CJK punctuation.  Letters, digits, symbols and
marks are not punctuation. -/
def isJsPunct (c : Char) : Bool :=
  let n := c.toNat
  (n ∈ [0x21, 0x22, 0x23, 0x25, 0x26, 0x27, 0x28, 0x29, 0x2A, 0x2C,
        0x2D, 0x2E, 0x2F, 0x3A, 0x3B, 0x3F, 0x40, 0x5B, 0x5C, 0x5D,
        0x5F, 0x7B, 0x7D]) ∨
  (n ∈ [0xA1, 0xA7, 0xAB, 0xB6, 0xB7, 0xBB, 0xBF]) ∨
  (n ∈ [0x60C, 0x60D, 0x61B, 0x61E, 0x61F, 0x6D4]) ∨
  (0x66A ≤ n ∧ n ≤ 0x66D) ∨
  (0x2010 ≤ n ∧ n ≤ 0x2027) ∨
  (0x2030 ≤ n ∧ n ≤ 0x2043) ∨ (0x2045 ≤ n ∧ n ≤ 0x2051) ∨
  (0x2053 ≤ n ∧ n ≤ 0x205E) ∨
  (0x3001 ≤ n ∧ n ≤ 0x3003) ∨ (0x3008 ≤ n ∧ n ≤ 0x3011) ∨
  (0x3014 ≤ n ∧ n ≤ 0x301F) ∨ n = 0x30FB

/-- A word-boundary character of the `wholeWordMatch` pattern
`(^|\s|[\p{P}])(kw)($|\s|[\p{P}])`: whitespace or punctuation. -/
def isBoundaryChar (c : Char) : Bool :=
  isJsSpace c ∨ isJsPunct c

/-- `String.prototype.toLowerCase`, modelled for the ASCII range (the
Arabic script has no case, so the strings of this development are mapped
identically by the simple mapping and by the full JavaScript mapping). -/
def lowerStr (s : String) : String :=
  String.mk (s.data.map Char.toLower)

/-- Does `kw` occur as an initial segment of `text`? -/
def listStartsWith (text kw : List Char) : Bool :=
  match kw, text with
  | [], _ => true
  | _ :: _, [] => false
  | k :: ks, t :: ts => k == t ∧ listStartsWith ts ks

/-- `String.prototype.includes`: `kw` occurs contiguously in `text`. -/
def listIncludes (text kw : List Char) : Bool :=
  match text with
  | [] => listStartsWith [] kw
  | _ :: ts => listStartsWith text kw ∨ listIncludes ts kw

/-- One candidate occurrence for the whole-word pattern: `kw` occurs at
position `i` of `text`, the character before it (if any) is a boundary
character, and the character after it (if any) is a boundary character.
The `^` and `$` alternatives of the pattern cover the missing-character
cases. -/
def wholeWordAt (text kw : List Char) (i : Nat) : Bool :=
  let boundaryAt : Option Char → Bool := fun oc =>
    match oc with
    | some c => isBoundaryChar c
    | none => false
  listStartsWith (text.drop i) kw ∧
  (i = 0 ∨ boundaryAt (text.get? (i - 1))) ∧
  (i + kw.length = text.length ∨ boundaryAt (text.get? (i + kw.length)))

/-- `wordRegex.test(searchText)` for the pattern
`(^|\s|[\p{P}])(escapeRegex(kw))($|\s|[\p{P}])` with the `u` flag:
the escaped keyword is matched literally, so the test succeeds exactly
when some occurrence of the keyword is word-bounded on both sides. -/
def wholeWordTest (text kw : List Char) : Bool :=
  (List.range (text.length + 1)).any (fun i => wholeWordAt text kw i)

/-- The options object of `matchKeywords`. -/
structure MatchOptions where
  caseSensitive : Bool
  wholeWordMatch : Bool
deriving DecidableEq

/-- `matchKeywords(text, keywords, options)` of textMatcher: normalize the
text and every keyword, lower-case both sides unless case-sensitive, then
test each keyword with the whole-word pattern or with substring
containment; any matching keyword makes the result true. -/
def matchKeywords (nfc : String → String) (text : String)
    (keywords : List String) (opts : MatchOptions) : Bool :=
  if text = "" ∨ keywords = [] then false
  else
    let normalizedText := normalizeArabicText nfc text
    let searchText := if opts.caseSensitive then normalizedText else lowerStr normalizedText
    (keywords.map (normalizeArabicText nfc)).any (fun kw =>
      let searchKeyword := if opts.caseSensitive then kw else lowerStr kw
      if opts.wholeWordMatch then wholeWordTest searchText.data searchKeyword.data
      else listIncludes searchText.data searchKeyword.data)

/-! ### Keyword search (`_findMatchedKeyword`, part_003 lines 544-561) -/

/-- The match options the watcher builds from its configuration. -/
def mkOpts (cfg : Config) : MatchOptions :=
  { caseSensitive := cfg.caseSensitive, wholeWordMatch := cfg.wholeWordMatch }

/-- `_findMatchedKeyword(text)` of part_003: walk `config.detection.keywords`
in order, test each keyword alone via `matchKeywords(text, [keyword], opts)`,
and return the first configured keyword string that matches, else null.
The surrounding `try`/`catch` cannot fire in this pure model; the
exception-aware control flow is modelled separately below. -/
def findMatchedKeyword (nfc : String → String) (cfg : Config) (text : String) :
    Option String :=
  cfg.keywords.find? (fun keyword => matchKeywords nfc text [keyword] (mkOpts cfg))

/-! ### Exception-aware model of the keyword search.

`matchKeywords` contains no `try`/`catch`, so an exception raised while
evaluating one keyword (the source comments name regular-expression
construction as the risk) propagates out of `matchKeywords`;
`_findMatchedKeyword` wraps its whole keyword loop in a single
`try`/`catch` that returns null.  The per-keyword evaluation is taken as a
parameter `evalK` that either returns the verdict or throws. -/

/-- The keyword loop of `matchKeywords` with a fallible per-keyword
evaluation: a throw propagates (there is no handler inside
`matchKeywords`), a true verdict short-circuits, otherwise the loop
continues. -/
def matchKeywordsE (evalK : String → Except Unit Bool) :
    List String → Except Unit Bool
  | [] => .ok false
  | kw :: rest =>
    match evalK kw with
    | .error e => .error e
    | .ok true => .ok true
    | .ok false => matchKeywordsE evalK rest

/-- The keyword loop of `_findMatchedKeyword`, calling `matchKeywords` on a
singleton list per keyword; a throw from `matchKeywords` propagates out of
the loop. -/
def findLoopE (evalK : String → Except Unit Bool) :
    List String → Except Unit (Option String)
  | [] => .ok none
  | kw :: rest =>
    match matchKeywordsE evalK [kw] with
    | .error e => .error e
    | .ok true => .ok (some kw)
    | .ok false => findLoopE evalK rest

/-- `_findMatchedKeyword` with its `try`/`catch`: the catch block turns any
exception from the whole loop into null. -/
def findMatchedKeywordE (evalK : String → Except Unit Bool)
    (keywords : List String) : Option String :=
  match findLoopE evalK keywords with
  | .ok r => r
  | .error _ => none

/-! ### Chat filter -/

/-- `isChatAllowed(chatName)` of `src/src/modules/watcher.js` lines
295-311: disabled filtering allows everything; `whitelist` mode tests a
case-insensitive substring match against the configured list; `active`
mode allows any chat whose name resolved (is not the literal string
`Unknown`); any other mode allows everything. -/
def isChatAllowed (cfg : Config) (chatName : String) : Bool :=
  if ¬ cfg.chatFilter.enabled then true
  else if cfg.chatFilter.mode = "whitelist" then
    cfg.chatFilter.whitelistedChats.any (fun allowed =>
      listIncludes (lowerStr chatName).data (lowerStr allowed).data)
  else if cfg.chatFilter.mode = "active" then
    chatName ≠ "Unknown"
  else true

/-- `_isChatAllowed(chatName)` of part_003 lines 591-603: disabled
filtering allows everything; `whitelist` mode tests exact membership in
the configured list; every other mode (the `Default: allow all` comment)
allows everything. -/
def isChatAllowedP3 (cfg : Config) (chatName : String) : Bool :=
  if ¬ cfg.chatFilter.enabled then true
  else if cfg.chatFilter.mode = "whitelist" then
    cfg.chatFilter.whitelistedChats.contains chatName
  else true

/-- `_shouldFilterByChat()` of part_003, with the chat name read from the
page passed explicitly: filtering disabled means nothing is filtered,
otherwise the message is filtered exactly when the chat is not allowed. -/
def shouldFilterByChat (cfg : Config) (chatName : String) : Bool :=
  if ¬ cfg.chatFilter.enabled then false
  else ¬ isChatAllowedP3 cfg chatName

/-! ### Watcher state and the detection pipeline (part_003) -/

/-- The mutable state of a `MessageWatcher` instance that the detection
pipeline reads and writes: the `startupTime` watermark and the
`detectedHashes` cache. -/
structure WatcherState where
  startupTime : Int
  detectedHashes : HashCache
deriving DecidableEq

/-- A queued message as pushed by the in-page observer:
`{text, timestamp, messageKey}`.  `messageKey` is an `Option` because the
consumers guard it with truthiness tests. -/
structure Message where
  text : String
  timestamp : Option Int
  messageKey : Option String
deriving DecidableEq

/-- The argument of the `onMessageDetected` callback (the ISO timestamp
string it also carries is presentation only and is omitted). -/
structure Detection where
  keyword : String
  text : String
  chatName : String
deriving DecidableEq

/-- `_triggerAlarm(messageData)` of part_003 lines 510-519: when the
callback is defined, advance the `startupTime` watermark to the current
time and fire the callback (returned as the `Bool` component); when it is
undefined, log an error and change nothing. -/
def triggerAlarm (s : WatcherState) (now : Int) (hasCallback : Bool) :
    WatcherState × Bool :=
  if hasCallback then ({ s with startupTime := now }, true)
  else (s, false)

/-- `handleMessage(message)` of part_003 lines 364-402, with the ambient
clock and the chat name read from the page passed explicitly.  The
pipeline order is the source order: falsy text returns early, then the
recency filter, then the duplicate check (whose cache writes survive even
when a later stage drops the message), then the keyword search, then the
chat filter, then `_triggerAlarm` (the constructor guarantees the callback
is defined, hence `hasCallback = true`). -/
def handleMessage (cfg : Config) (nfc : String → String) (s : WatcherState)
    (now : Int) (chatName : String) (msg : Message) :
    WatcherState × Option Detection :=
  if msg.text = "" then (s, none)
  else if ¬ isRecentMessage msg.timestamp s.startupTime now then (s, none)
  else
    let dres := isDuplicate cfg s.detectedHashes now msg.text msg.timestamp msg.messageKey
    let s1 : WatcherState := { s with detectedHashes := dres.2 }
    if dres.1 then (s1, none)
    else
      match findMatchedKeyword nfc cfg msg.text with
      | none => (s1, none)
      | some kw =>
        if shouldFilterByChat cfg chatName then (s1, none)
        else
          let tres := triggerAlarm s1 now true
          (tres.1, if tres.2 then some ⟨kw, msg.text, chatName⟩ else none)

/-! ### In-page observer state (`processNode`, `resetAfterAlarmStop`) -/

/-- The state the injected observer keeps in the page context:
`window.__messageQueue` and `window.__seenMessageKeys`. -/
structure PageState where
  messageQueue : List Message
  seenMessageKeys : List String
deriving DecidableEq

/-- The dedupe key computed by `processNode` (part_003 lines 275-277):
`messageKey|timestamp|text` when a message key is truthy, else
`text|timestamp`. -/
def dedupeKey (m : Message) : String :=
  match m.messageKey with
  | some mk => mk ++ "|" ++ tsStr m.timestamp ++ "|" ++ m.text
  | none => m.text ++ "|" ++ tsStr m.timestamp

/-- `processNode(node)` of the injected observer (part_003 lines 239-287).
The early returns that never touch the dedupe state (non-element node, no
message container, text at most the minimum length, outgoing message) are
abstracted into the flag `guardsPass`; the extracted fields are the fields
of `m`.  A node whose dedupe key is already in `__seenMessageKeys` is
dropped; otherwise the key is recorded and the message queued. -/
def processNode (st : PageState) (guardsPass : Bool) (m : Message) : PageState :=
  if ¬ guardsPass then st
  else
    let dk := dedupeKey m
    if st.seenMessageKeys.contains dk then st
    else { messageQueue := st.messageQueue ++ [m],
           seenMessageKeys := dk :: st.seenMessageKeys }

/-- The page side of `processNewMessages` (part_003 lines 342-346): read
the queue and clear it.  `__seenMessageKeys` is untouched. -/
def drainQueue (st : PageState) : List Message × PageState :=
  (st.messageQueue, { st with messageQueue := [] })

/-- `resetAfterAlarmStop` (part_003 lines 616-626): the page evaluation
clears only `window.__messageQueue`; `__seenMessageKeys` is untouched. -/
def resetAfterAlarmStop (st : PageState) : PageState :=
  { st with messageQueue := [] }

/-- The events that touch the in-page state over the lifetime of the page:
an added node processed by the observer, a poll draining the queue, and a
reset after the alarm stops.  (Re-injecting the observer keeps
`__seenMessageKeys` via `window.__seenMessageKeys || new Set()`, so it
adds no further event shape.) -/
inductive PageEvent where
  | node : Bool → Message → PageEvent
  | drain : PageEvent
  | reset : PageEvent

/-- Apply one in-page event to the page state. -/
def applyEvent (st : PageState) : PageEvent → PageState
  | .node p m => processNode st p m
  | .drain => (drainQueue st).2
  | .reset => resetAfterAlarmStop st

/-! ### A model of the NFC platform builtin.

Modelled from the spec: `text.normalize("NFC")` in `normalizeArabicText`
is the ECMAScript platform builtin for Unicode Normalization Form C, not
repository code.  The functions below implement the NFC algorithm —
canonical decomposition, canonical ordering, canonical composition with
blocking — with the Unicode character data restricted to the characters
exercised by the theorems of this development: the canonical pair
U+0627 (alef) + U+0653 (maddah above, combining class 230) ↔ U+0622
(alef with madda above), with every other character a starter with no
decomposition.  On strings built from the covered characters this agrees
with full NFC. -/

/-- Canonical combining class, restricted to the covered data: the Arabic
maddah above U+0653 has class 230, all other covered characters are
starters (class 0). -/
def ccc (c : Char) : Nat :=
  if c.toNat = 0x653 then 230 else 0

/-- Canonical decomposition table: U+0622 decomposes to U+0627 U+0653.
The decomposition is already fully decomposed, so one level suffices. -/
def canonDecomp (c : Char) : Option (Char × Char) :=
  if c.toNat = 0x622 then some (Char.ofNat 0x627, Char.ofNat 0x653)
  else none

/-- Primary composite table: U+0627 composed with U+0653 is U+0622. -/
def composePair (a b : Char) : Option Char :=
  if a.toNat = 0x627 ∧ b.toNat = 0x653 then some (Char.ofNat 0x622)
  else none

/-- Full canonical decomposition of one character. -/
def decompChar (c : Char) : List Char :=
  match canonDecomp c with
  | some (a, b) => [a, b]
  | none => [c]

/-- Stable insertion of a combining mark into an already ordered run:
the mark moves past every mark of combining class at most its own. -/
def insMark (a : Char) : List Char → List Char
  | [] => [a]
  | b :: bs => if ccc b ≤ ccc a then b :: insMark a bs else a :: b :: bs

/-- Stable insertion sort of a run of combining marks by combining class
(the Canonical Ordering step of the normalization algorithm). -/
def sortMarks : List Char → List Char
  | [] => []
  | a :: as => insMark a (sortMarks as)

/-- Canonical ordering over a whole string: each maximal run of
non-starters is sorted stably by combining class; starters are fixed. -/
def canonOrderGo (run : List Char) : List Char → List Char
  | [] => sortMarks run.reverse
  | c :: rest =>
    if ccc c = 0 then sortMarks run.reverse ++ (c :: canonOrderGo [] rest)
    else canonOrderGo (c :: run) rest

/-- Canonical ordering entry point. -/
def canonOrder (l : List Char) : List Char :=
  canonOrderGo [] l

/-- The Canonical Composition step after one starter `s`: each following
mark is blocked when an earlier kept mark has combining class at least its
own; an unblocked mark with a primary composite for the current starter
composes into it; a new starter closes the segment.  `acc` holds the kept
marks in reverse order. -/
def composeGo (s : Char) (acc : List Char) : List Char → List Char
  | [] => s :: acc.reverse
  | c :: rest =>
    if ccc c = 0 then (s :: acc.reverse) ++ composeGo c [] rest
    else if acc.any (fun b => ccc c ≤ ccc b) then composeGo s (c :: acc) rest
    else
      match composePair s c with
      | some s2 => composeGo s2 acc rest
      | none => composeGo s (c :: acc) rest

/-- Canonical composition entry point; leading non-starters cannot compose
and are emitted as they are. -/
def nfcCompose : List Char → List Char
  | [] => []
  | c :: rest =>
    if ccc c = 0 then composeGo c [] rest
    else c :: nfcCompose rest

/-- The modelled `String.prototype.normalize("NFC")`: decompose, reorder,
recompose. -/
def nfcM (s : String) : String :=
  String.mk (nfcCompose (canonOrder (s.data.map decompChar).flatten))

/-! ## Theorems -/

/-- Characterization of the recency filter: a candidate passes exactly when
it carries a non-null, non-zero timestamp that is not in the future and is
at or after the startup time floored to the minute. -/
theorem isRecent_iff (ts : Option Int) (startup now : Int) :
    isRecentMessage ts startup now = true ↔
      ∃ v, ts = some v ∧ v ≠ 0 ∧ v ≤ now ∧ floorMinute startup ≤ v := by
  cases ts with
  | none => simp [isRecentMessage]
  | some v =>
    simp only [isRecentMessage]
    constructor
    · intro h
      split_ifs at h with h0 h1
      exact ⟨v, rfl, h0, by omega, by omega⟩
    · rintro ⟨w, hw, hne, hle, hfl⟩
      rw [Option.some.injEq] at hw
      subst hw
      split_ifs <;> first | rfl | omega

/-- C4: the recency filter rejects the zero sentinel, a null timestamp,
any future timestamp (in particular one 60 seconds ahead of the clock),
and any timestamp below the startup time floored to the minute (in
particular one millisecond below it); among the candidates the earlier
rules do not reject, it accepts exactly the timestamps at or above that
floor (in particular the floor itself). -/
theorem recency_filter_boundary (ts : Option Int) (startup now : Int) :
    isRecentMessage (some 0) startup now = false
    ∧ isRecentMessage none startup now = false
    ∧ isRecentMessage (some (now + 60000)) startup now = false
    ∧ (floorMinute startup ≠ 0 → floorMinute startup ≤ now →
        isRecentMessage (some (floorMinute startup)) startup now = true)
    ∧ isRecentMessage (some (floorMinute startup - 1)) startup now = false
    ∧ (isRecentMessage ts startup now = true ↔
        ∃ v, ts = some v ∧ v ≠ 0 ∧ v ≤ now ∧ floorMinute startup ≤ v) := by
  refine ⟨by simp [isRecentMessage], by simp [isRecentMessage], ?_, ?_, ?_,
    isRecent_iff ts startup now⟩
  · simp only [isRecentMessage]
    split_ifs with h0 h1 h2 <;> first | rfl | omega
  · intro hf0 hfn
    simp only [isRecentMessage]
    split_ifs with h0 h1 h2 <;> first | rfl | omega
  · simp only [isRecentMessage]
    split_ifs with h0 h1 h2 <;> first | rfl | omega

/-- Witness for C4 at concrete inputs: a timestamp equal to the minute
floor of the startup time, in the past and nonzero, is accepted. -/
theorem recency_filter_boundary_witness :
    isRecentMessage (some 120000) 120500 150000 = true := by
  have h := (recency_filter_boundary (some 120000) 120500 150000).2.2.2.2.2
  exact h.mpr ⟨120000, rfl, by decide, by decide, by decide⟩

/-- C1 counterexample: after an alarm fires at epoch time 90000 (so the
watermark is advanced to 90000), a candidate with timestamp 70000 — at or
before the detection moment — is still accepted by the recency filter at
clock time 100000, because the filter floors the watermark to the minute.
This refutes the claim that only messages strictly after the detection
moment can trigger the next detection. -/
theorem watermark_strictly_after_cex :
    (triggerAlarm ⟨0, []⟩ 90000 true).2 = true
    ∧ (triggerAlarm ⟨0, []⟩ 90000 true).1.startupTime = 90000
    ∧ (70000 : Int) ≤ 90000
    ∧ isRecentMessage (some 70000)
        (triggerAlarm ⟨0, []⟩ 90000 true).1.startupTime 100000 = true := by
  decide

/-- C1 (amended): whenever `_triggerAlarm` runs with a defined callback,
the watermark is set to the current time before the callback fires, and
from then on the recency filter accepts exactly the candidates with a
non-null, non-zero, non-future timestamp at or after the detection moment
floored to the minute — candidates up to a minute boundary before the
detection moment can still be accepted, so acceptance is not restricted
to timestamps strictly after the detection moment. -/
theorem watermark_advance_on_detection (s : WatcherState) (now : Int)
    (hasCallback : Bool) (h : hasCallback = true) :
    (triggerAlarm s now hasCallback).2 = true
    ∧ (triggerAlarm s now hasCallback).1.startupTime = now
    ∧ ∀ ts now2,
        isRecentMessage ts (triggerAlarm s now hasCallback).1.startupTime now2 = true ↔
          ∃ v, ts = some v ∧ v ≠ 0 ∧ v ≤ now2 ∧ floorMinute now ≤ v := by
  subst h
  refine ⟨rfl, rfl, fun ts now2 => ?_⟩
  exact isRecent_iff ts now now2

/-- Witness for C1 (amended) at a concrete state and time. -/
theorem watermark_advance_on_detection_witness :
    (triggerAlarm ⟨0, []⟩ 90000 true).1.startupTime = 90000 :=
  (watermark_advance_on_detection ⟨0, []⟩ 90000 true rfl).2.1

/-- C2: with chat filtering enabled and the mode set to `active`,
`isChatAllowed` of `watcher.js` accepts a chat name exactly when it is not
the unresolved marker `Unknown`. -/
theorem active_mode_chat_filter (cfg : Config) (chatName : String)
    (hen : cfg.chatFilter.enabled = true) (hm : cfg.chatFilter.mode = "active") :
    (isChatAllowed cfg chatName = true ↔ chatName ≠ "Unknown") := by
  have hne : cfg.chatFilter.mode ≠ "whitelist" := by rw [hm]; decide
  simp [isChatAllowed, hen, hm, hne]

/-- Witness for C2: a resolved chat name is allowed in active mode. -/
theorem active_mode_chat_filter_witness :
    isChatAllowed ⟨false, 0, [], false, false, ⟨true, "active", []⟩⟩ "Mom" = true :=
  (active_mode_chat_filter ⟨false, 0, [], false, false, ⟨true, "active", []⟩⟩
    "Mom" rfl rfl).mpr (by decide)

/-- Both true-returning paths of `_isDuplicate` return before any
`detectedHashes.set` call, so the cache is unchanged. -/
theorem isDuplicate_true_frame (cfg : Config) (hashes : HashCache) (now : Int)
    (text : String) (ts : Option Int) (mk : Option String)
    (h : (isDuplicate cfg hashes now text ts mk).1 = true) :
    (isDuplicate cfg hashes now text ts mk).2 = hashes := by
  rcases mk with _ | mk <;>
  · simp only [isDuplicate] at h ⊢
    split_ifs at h ⊢ <;> simp_all

/-- C9: a duplicate verdict leaves the `detectedHashes` cache exactly as it
was: no entry is inserted and no stored time is refreshed, so the TTL
window of a fingerprint runs from its first recording (the window does not
slide on duplicate sightings). -/
theorem duplicate_verdict_frame (cfg : Config) (hashes : HashCache) (now : Int)
    (text : String) (ts : Option Int) (mk : Option String)
    (h : (isDuplicate cfg hashes now text ts mk).1 = true) :
    (isDuplicate cfg hashes now text ts mk).2 = hashes :=
  isDuplicate_true_frame cfg hashes now text ts mk h

set_option maxRecDepth 4000 in
/-- Witness for C9: a concrete duplicate hit (the fallback fingerprint of
the message is already cached at a recent time) leaves the cache
unchanged. -/
theorem duplicate_verdict_frame_witness :
    (isDuplicate ⟨true, 3600000, [], false, false, ⟨false, "", []⟩⟩
        [(hashText "abc|59000", 61000)] 62000 "abc" (some 59000) none).2
      = [(hashText "abc|59000", 61000)] :=
  duplicate_verdict_frame _ _ _ _ _ _ (by decide)

/-- A recorded dedupe key survives any later in-page event: `processNode`
only adds keys, draining the queue and `resetAfterAlarmStop` clear only
the queue. -/
theorem seenKeys_mono (st : PageState) (e : PageEvent) (k : String)
    (h : k ∈ st.seenMessageKeys) : k ∈ (applyEvent st e).seenMessageKeys := by
  cases e with
  | node p m =>
    simp only [applyEvent, processNode]
    split_ifs <;> simp [h]
  | drain => simpa [applyEvent, drainQueue] using h
  | reset => simpa [applyEvent, resetAfterAlarmStop] using h

/-- A recorded dedupe key survives any sequence of later in-page events. -/
theorem seenKeys_mono_foldl (es : List PageEvent) (st : PageState) (k : String)
    (h : k ∈ st.seenMessageKeys) : k ∈ (es.foldl applyEvent st).seenMessageKeys := by
  induction es generalizing st with
  | nil => exact h
  | cons e rest ih => exact ih (applyEvent st e) (seenKeys_mono st e k h)

/-- C10: queuing a node records its dedupe key in `__seenMessageKeys`; once
a key is recorded it is never removed by any later in-page event
(including `resetAfterAlarmStop`, which clears only the queue), and a
later node producing the same dedupe key leaves the page state unchanged —
it is dropped and never queued again for the lifetime of the page. -/
theorem inpage_dedupe_permanent (st : PageState) (m : Message)
    (es : List PageEvent) (h : dedupeKey m ∈ st.seenMessageKeys) :
    dedupeKey m ∈ (processNode st true m).seenMessageKeys
    ∧ dedupeKey m ∈ (es.foldl applyEvent st).seenMessageKeys
    ∧ processNode (es.foldl applyEvent st) true m = es.foldl applyEvent st := by
  refine ⟨?_, seenKeys_mono_foldl es st _ h, ?_⟩
  · simp only [processNode]
    split_ifs <;> simp [h]
  · have hmem := seenKeys_mono_foldl es st _ h
    simp [processNode, List.contains, List.elem_eq_mem, hmem]

/-- Witness for C10: with the key of a concrete message already seen, a
reset event preserves the key and re-processing the message is a no-op. -/
theorem inpage_dedupe_permanent_witness :
    processNode ([PageEvent.reset].foldl applyEvent ⟨[], ["a|"]⟩) true
        ⟨"a", none, none⟩
      = [PageEvent.reset].foldl applyEvent ⟨[], ["a|"]⟩ :=
  (inpage_dedupe_permanent ⟨[], ["a|"]⟩ ⟨"a", none, none⟩ [PageEvent.reset]
    (by simp [dedupeKey, tsStr])).2.2

/-- A per-keyword evaluation for the C3 counterexample: the first keyword
throws, the second matches. -/
def failingEval : String → Except Unit Bool := fun k =>
  if k = "bad" then .error ()
  else if k = "good" then .ok true
  else .ok false

/-- C3 counterexample: with a keyword list whose first keyword throws
during evaluation and whose second keyword matches, the search returns
null — the failing keyword aborts the whole loop through the single
`try`/`catch` of `_findMatchedKeyword`, so the later matching keyword is
not returned, refuting the claim that matching continues with the
remaining keywords. -/
theorem keyword_error_continue_cex :
    findMatchedKeywordE failingEval ["bad", "good"] = none
    ∧ findMatchedKeywordE failingEval ["good"] = some "good" := by
  exact ⟨rfl, rfl⟩

/-- If every keyword of `pre` evaluates to a non-match, the loop of
`_findMatchedKeyword` reaches `kw`; when `kw` throws, the exception
propagates out of the whole loop. -/
theorem findLoopE_error (evalK : String → Except Unit Bool)
    (pre : List String) (kw : String) (post : List String)
    (hpre : ∀ k ∈ pre, evalK k = .ok false) (hkw : evalK kw = .error ()) :
    findLoopE evalK (pre ++ kw :: post) = .error () := by
  induction pre with
  | nil => simp [findLoopE, matchKeywordsE, hkw]
  | cons a as ih =>
    have ha : evalK a = .ok false := hpre a (by simp)
    have hrest : ∀ k ∈ as, evalK k = .ok false := fun k hk => hpre k (by simp [hk])
    simpa [findLoopE, matchKeywordsE, ha] using ih hrest

/-- C3 (amended): the keyword search itself never throws (the single
`try`/`catch` of `_findMatchedKeyword` converts any exception into a null
result), but when evaluating one keyword fails the entire search returns
null: the remaining keywords of the list are not evaluated, so a later
keyword cannot be returned as the match. -/
theorem keyword_error_aborts (evalK : String → Except Unit Bool)
    (pre : List String) (kw : String) (post : List String)
    (hpre : ∀ k ∈ pre, evalK k = .ok false) (hkw : evalK kw = .error ()) :
    findMatchedKeywordE evalK (pre ++ kw :: post) = none := by
  simp [findMatchedKeywordE, findLoopE_error evalK pre kw post hpre hkw]

/-- Witness for C3 (amended) at the concrete failing evaluation. -/
theorem keyword_error_aborts_witness :
    findMatchedKeywordE failingEval ["bad", "good"] = none :=
  keyword_error_aborts failingEval [] "bad" ["good"] (by simp) (by simp [failingEval])

/-- C7: the keyword search returns the first keyword of the configured
order whose (internally normalized, and lower-cased when not
case-sensitive) form matches the normalized text, returning the original
configured string — the result is drawn from `config.detection.keywords`
itself, every earlier configured keyword fails to match, and the result is
null exactly when no configured keyword matches. -/
theorem first_match_policy (nfc : String → String) (cfg : Config) (text : String) :
    (∀ kw, findMatchedKeyword nfc cfg text = some kw →
        kw ∈ cfg.keywords
        ∧ matchKeywords nfc text [kw] (mkOpts cfg) = true
        ∧ ∃ pre post, cfg.keywords = pre ++ kw :: post
            ∧ ∀ k ∈ pre, matchKeywords nfc text [k] (mkOpts cfg) = false)
    ∧ (findMatchedKeyword nfc cfg text = none ↔
        ∀ kw ∈ cfg.keywords, matchKeywords nfc text [kw] (mkOpts cfg) = false) := by
  constructor
  · intro kw h
    rw [findMatchedKeyword, List.find?_eq_some] at h
    obtain ⟨hp, pre, post, heq, hpre⟩ := h
    refine ⟨by rw [heq]; simp, hp, pre, post, heq, fun k hk => ?_⟩
    simpa using hpre k hk
  · rw [findMatchedKeyword, List.find?_eq_none]
    constructor
    · intro h kw hkw
      simpa using h kw hkw
    · intro h kw hkw
      simp [h kw hkw]

set_option maxRecDepth 4000 in
/-- Witness for C7 at a concrete configuration: with keywords
`["x", "b"]` and text `"abc"`, the search returns `"b"`, and the theorem
yields that `"b"` matches. -/
theorem first_match_policy_witness :
    matchKeywords nfcM "abc" ["b"]
      (mkOpts ⟨false, 0, ["x", "b"], false, false, ⟨false, "", []⟩⟩) = true :=
  ((first_match_policy nfcM ⟨false, 0, ["x", "b"], false, false, ⟨false, "", []⟩⟩
      "abc").1 "b" (by decide)).2.1

/-- C6: with the keyword `تأخير`, whole-word matching accepts
`تأخير اليوم` (keyword at the start, followed by a space) and rejects
`متأخيرة` (keyword embedded between letters), while substring matching
accepts both.  The NFC builtin is abstracted by `nfc`; the three
hypotheses say the three strings are NFC-normalized (they are: they
contain only precomposed Arabic letters and a space). -/
theorem whole_word_vs_substring (nfc : String → String)
    (h1 : nfc "تأخير" = "تأخير")
    (h2 : nfc "تأخير اليوم" = "تأخير اليوم")
    (h3 : nfc "متأخيرة" = "متأخيرة") :
    matchKeywords nfc "تأخير اليوم" ["تأخير"] ⟨false, true⟩ = true
    ∧ matchKeywords nfc "متأخيرة" ["تأخير"] ⟨false, true⟩ = false
    ∧ matchKeywords nfc "تأخير اليوم" ["تأخير"] ⟨false, false⟩ = true
    ∧ matchKeywords nfc "متأخيرة" ["تأخير"] ⟨false, false⟩ = true := by
  have e1 : normalizeArabicText nfc "تأخير" = "تأخير" := by
    unfold normalizeArabicText
    rw [if_neg (by decide), h1]
    decide
  have e2 : normalizeArabicText nfc "تأخير اليوم" = "تأخير اليوم" := by
    unfold normalizeArabicText
    rw [if_neg (by decide), h2]
    decide
  have e3 : normalizeArabicText nfc "متأخيرة" = "متأخيرة" := by
    unfold normalizeArabicText
    rw [if_neg (by decide), h3]
    decide
  refine ⟨?_, ?_, ?_, ?_⟩ <;>
  · simp only [matchKeywords, List.map, e1, e2, e3]
    decide

set_option maxRecDepth 4000 in
/-- Witness for C6 at the modelled NFC builtin. -/
theorem whole_word_vs_substring_witness :
    matchKeywords nfcM "تأخير اليوم" ["تأخير"] ⟨false, true⟩ = true :=
  (whole_word_vs_substring nfcM (by decide) (by decide) (by decide)).1

/-- C8 counterexample: `normalizeArabicText` is not idempotent.  On the
input U+0627 U+0640 U+0653 (alef, tatweel, maddah above), NFC leaves the
string unchanged because the tatweel blocks the maddah from the alef, and
the first pass then strips the tatweel, leaving the decomposed pair
U+0627 U+0653; the second pass composes that pair into U+0622 (alef with
madda above), a different string. -/
theorem normalize_idempotent_cex :
    normalizeArabicText nfcM "\u0627\u0640\u0653" = "\u0627\u0653"
    ∧ normalizeArabicText nfcM (normalizeArabicText nfcM "\u0627\u0640\u0653")
        = "\u0622"
    ∧ normalizeArabicText nfcM (normalizeArabicText nfcM "\u0627\u0640\u0653")
        ≠ normalizeArabicText nfcM "\u0627\u0640\u0653" := by
  decide

/-- C8 (amended): `normalizeArabicText` is idempotent on every input whose
NFC form is left unchanged by the character stripping (in particular on
every input free of the stripped characters).  The hypotheses instantiate
two facts of the NFC builtin at the given input: NFC is idempotent, and
here the stripping removes nothing from the normalized form. -/
theorem normalize_idempotent_on_stripped (nfc : String → String) (x : String)
    (hnfc : nfc (nfc x) = nfc x) (hx : stripInvisible (nfc x) = nfc x) :
    normalizeArabicText nfc (normalizeArabicText nfc x)
      = normalizeArabicText nfc x := by
  unfold normalizeArabicText
  by_cases hempty : x = ""
  · simp [hempty]
  · rw [if_neg hempty, hx]
    by_cases h2 : nfc x = ""
    · simp [h2]
    · rw [if_neg h2, hnfc, hx]

/-- Witness for C8 (amended) at a concrete Arabic string free of stripped
characters. -/
theorem normalize_idempotent_on_stripped_witness :
    normalizeArabicText nfcM (normalizeArabicText nfcM "سلام")
      = normalizeArabicText nfcM "سلام" :=
  normalize_idempotent_on_stripped nfcM "سلام" (by decide) (by decide)

/-! ### Cache lemmas for the duplicate-suppression claims -/

/-- The fallback fingerprint hash of a message
(`hashText` of `text|timestamp`). -/
def fallbackHash (m : Message) : String :=
  hashText (m.text ++ "|" ++ tsStr m.timestamp)

/-- The identity-key fingerprint hash of a message
(`hashText` of `messageKey|timestamp|text`). -/
def keyHash (mk : String) (m : Message) : String :=
  hashText (mk ++ "|" ++ tsStr m.timestamp ++ "|" ++ m.text)

/-- Looking up a key just set yields the new value. -/
theorem mapGet_set_self (m : HashCache) (k : String) (v : Int) :
    mapGet (mapSet m k v) k = some v := by
  induction m with
  | nil => simp [mapSet, mapGet, List.find?]
  | cons e rest ih =>
    by_cases he : e.1 == k
    · simp [mapSet, mapGet, List.find?, he]
    · simp only [mapSet, he, Bool.false_eq_true, if_false]
      simpa [mapGet, List.find?, he] using ih

/-- Setting one key leaves lookups of a different key unchanged. -/
theorem mapGet_set_ne (m : HashCache) (k k2 : String) (v : Int) (h : k2 ≠ k) :
    mapGet (mapSet m k v) k2 = mapGet m k2 := by
  have hbeq : (k == k2) = false := beq_eq_false_iff_ne.mpr (Ne.symm h)
  induction m with
  | nil => simp [mapSet, mapGet, List.find?, hbeq]
  | cons e rest ih =>
    by_cases he : e.1 == k
    · have he2 : e.1 = k := eq_of_beq he
      simp [mapSet, he, mapGet, List.find?, hbeq, he2]
    · simp only [mapSet, he, Bool.false_eq_true, if_false]
      by_cases he3 : e.1 == k2
      · simp [mapGet, List.find?, he3]
      · simpa [mapGet, List.find?, he3] using ih

/-- A `Map.set` grows the entry list by at most one. -/
theorem mapSet_length_le (m : HashCache) (k : String) (v : Int) :
    (mapSet m k v).length ≤ m.length + 1 := by
  induction m with
  | nil => simp [mapSet]
  | cons e rest ih =>
    by_cases he : e.1 == k
    · simp [mapSet, he]
    · simp [mapSet, he]
      omega

/-- The opportunistic sweep does nothing while the cache is within its
soft cap. -/
theorem cleanupOldHashes_small (hashes : HashCache) (now ttl : Int)
    (h : hashes.length ≤ 1000) : cleanupOldHashes hashes now ttl = hashes := by
  simp [cleanupOldHashes, h]

/-- The duplicate verdict of `_isDuplicate` holds exactly when either
fingerprint of the candidate was seen within the TTL: the fallback
`text|timestamp` fingerprint, or — when an identity key exists — the
`messageKey|timestamp|text` fingerprint. -/
theorem isDuplicate_fst_iff (cfg : Config) (hashes : HashCache) (now : Int)
    (m : Message) (hdp : cfg.enableDuplicateProtection = true) :
    (isDuplicate cfg hashes now m.text m.timestamp m.messageKey).1 = true ↔
      (isHashRecent cfg.duplicateCacheTTL hashes (fallbackHash m) now = true
       ∨ ∃ mk, m.messageKey = some mk
           ∧ isHashRecent cfg.duplicateCacheTTL hashes (keyHash mk m) now = true) := by
  rcases m with ⟨text, ts, mk⟩
  rcases mk with _ | mk
  · by_cases hfb : isHashRecent cfg.duplicateCacheTTL hashes
        (hashText (text ++ "|" ++ tsStr ts)) now <;>
      simp [isDuplicate, hdp, hfb, fallbackHash]
  · by_cases hfb : isHashRecent cfg.duplicateCacheTTL hashes
        (hashText (text ++ "|" ++ tsStr ts)) now
    · simp [isDuplicate, hdp, hfb, fallbackHash]
    · by_cases hk : isHashRecent cfg.duplicateCacheTTL hashes
          (hashText (mk ++ "|" ++ tsStr ts ++ "|" ++ text)) now <;>
        simp [isDuplicate, hdp, hfb, hk, fallbackHash, keyHash]

/-- Feeding a candidate into `_isDuplicate` with an empty cache records
both of its fingerprints at the current time and reports non-duplicate. -/
theorem isDuplicate_fresh (cfg : Config) (now : Int) (m : Message)
    (hdp : cfg.enableDuplicateProtection = true) :
    (isDuplicate cfg [] now m.text m.timestamp m.messageKey).1 = false
    ∧ mapGet (isDuplicate cfg [] now m.text m.timestamp m.messageKey).2
        (fallbackHash m) = some now
    ∧ ∀ mk, m.messageKey = some mk →
        mapGet (isDuplicate cfg [] now m.text m.timestamp m.messageKey).2
          (keyHash mk m) = some now := by
  rcases m with ⟨text, ts, mk⟩
  rcases mk with _ | mk
  · refine ⟨?_, ?_, ?_⟩
    · simp [isDuplicate, hdp, isHashRecent, mapGet, List.find?]
    · have hclean : cleanupOldHashes (mapSet []
          (hashText (text ++ "|" ++ tsStr ts)) now) now cfg.duplicateCacheTTL
          = mapSet [] (hashText (text ++ "|" ++ tsStr ts)) now :=
        cleanupOldHashes_small _ _ _ (by simp [mapSet])
      simp [isDuplicate, hdp, isHashRecent, mapGet, List.find?, hclean,
        fallbackHash, mapGet_set_self]
    · intro mk hmk
      cases hmk
  · have hfb : isHashRecent cfg.duplicateCacheTTL []
        (hashText (text ++ "|" ++ tsStr ts)) now = false := by
      simp [isHashRecent, mapGet, List.find?]
    have hk : isHashRecent cfg.duplicateCacheTTL []
        (hashText (mk ++ "|" ++ tsStr ts ++ "|" ++ text)) now = false := by
      simp [isHashRecent, mapGet, List.find?]
    have hlen : (mapSet (mapSet []
        (hashText (mk ++ "|" ++ tsStr ts ++ "|" ++ text)) now)
        (hashText (text ++ "|" ++ tsStr ts)) now).length ≤ 1000 := by
      have h1 := mapSet_length_le ([] : HashCache)
        (hashText (mk ++ "|" ++ tsStr ts ++ "|" ++ text)) now
      have h2 := mapSet_length_le (mapSet []
        (hashText (mk ++ "|" ++ tsStr ts ++ "|" ++ text)) now)
        (hashText (text ++ "|" ++ tsStr ts)) now
      simp at h1
      omega
    have hclean := cleanupOldHashes_small _ now cfg.duplicateCacheTTL hlen
    refine ⟨?_, ?_, ?_⟩
    · simp [isDuplicate, hdp, hfb, hk]
    · simp [isDuplicate, hdp, hfb, hk, hclean, fallbackHash, mapGet_set_self]
    · intro mk2 hmk2
      rw [Option.some.injEq] at hmk2
      subst hmk2
      simp only [isDuplicate, hdp, hfb, hk, keyHash, fallbackHash]
      simp only [not_true, if_false, Bool.false_eq_true]
      rw [hclean]
      by_cases hsame : hashText (mk ++ "|" ++ tsStr ts ++ "|" ++ text)
          = hashText (text ++ "|" ++ tsStr ts)
      · rw [hsame, mapGet_set_self]
      · rw [mapGet_set_ne _ _ _ _ hsame, mapGet_set_self]

/-- A recent fallback fingerprint makes `_isDuplicate` report a duplicate
and leave the cache untouched. -/
theorem isDuplicate_recent_fb (cfg : Config) (hashes : HashCache) (now : Int)
    (m : Message) (hdp : cfg.enableDuplicateProtection = true)
    (hfb : isHashRecent cfg.duplicateCacheTTL hashes (fallbackHash m) now = true) :
    isDuplicate cfg hashes now m.text m.timestamp m.messageKey = (true, hashes) := by
  rcases m with ⟨text, ts, mk⟩
  rcases mk with _ | mk <;>
    simp only [fallbackHash] at hfb <;>
    simp [isDuplicate, hdp, hfb]

/-- `handleMessage` on a candidate that passes every stage: the duplicate
cache is updated, the watermark advances to the current time, and one
detection event is emitted. -/
theorem handleMessage_detect (cfg : Config) (nfc : String → String)
    (s : WatcherState) (now : Int) (chat : String) (m : Message) (kw : String)
    (htext : m.text ≠ "")
    (hrec : isRecentMessage m.timestamp s.startupTime now = true)
    (hdup : (isDuplicate cfg s.detectedHashes now m.text m.timestamp m.messageKey).1 = false)
    (hkw : findMatchedKeyword nfc cfg m.text = some kw)
    (hchat : shouldFilterByChat cfg chat = false) :
    handleMessage cfg nfc s now chat m
      = (⟨now, (isDuplicate cfg s.detectedHashes now m.text m.timestamp m.messageKey).2⟩,
         some ⟨kw, m.text, chat⟩) := by
  simp [handleMessage, htext, hrec, hdup, hkw, hchat, triggerAlarm]

/-- `handleMessage` on a candidate the duplicate check flags: no event,
and (using the frame property of the duplicate verdict) the watcher state
is exactly as before. -/
theorem handleMessage_dup (cfg : Config) (nfc : String → String)
    (s : WatcherState) (now : Int) (chat : String) (m : Message)
    (htext : m.text ≠ "")
    (hdup : (isDuplicate cfg s.detectedHashes now m.text m.timestamp m.messageKey).1 = true) :
    handleMessage cfg nfc s now chat m = (s, none) := by
  have hframe := isDuplicate_true_frame cfg s.detectedHashes now
    m.text m.timestamp m.messageKey hdup
  by_cases hrec : isRecentMessage m.timestamp s.startupTime now = true
  · simp [handleMessage, htext, hrec, hdup, hframe]
  · simp [handleMessage, htext, hrec]

/-- `handleMessage` on a candidate the recency filter rejects: nothing
happens. -/
theorem handleMessage_stale (cfg : Config) (nfc : String → String)
    (s : WatcherState) (now : Int) (chat : String) (m : Message)
    (hrec : isRecentMessage m.timestamp s.startupTime now = false) :
    handleMessage cfg nfc s now chat m = (s, none) := by
  by_cases htext : m.text = ""
  · simp [handleMessage, htext]
  · simp [handleMessage, htext, hrec]

/-- C5 (amended): with duplicate protection enabled, feeding a fully
passing candidate into `handleMessage` from an empty cache emits one
detection; feeding the same candidate again while its fingerprint is
within the TTL emits nothing and leaves the watcher state unchanged
(whether the second feed is stopped by the recency filter or by the
duplicate cache); feeding it a third time after the TTL has expired emits
a second detection, provided the candidate again passes the recency
filter against the watermark advanced at the first detection.  The
duplicate verdict itself holds exactly when either fingerprint — the
`text|timestamp` fallback or, when an identity key exists, the
`messageKey|timestamp|text` key fingerprint — was seen within the TTL. -/
theorem duplicate_suppression (cfg : Config) (nfc : String → String)
    (start now1 now2 now3 : Int) (chat : String) (m : Message) (kw : String)
    (hdp : cfg.enableDuplicateProtection = true)
    (htext : m.text ≠ "")
    (hrec1 : isRecentMessage m.timestamp start now1 = true)
    (hkw : findMatchedKeyword nfc cfg m.text = some kw)
    (hchat : shouldFilterByChat cfg chat = false)
    (httl2 : now2 - now1 < cfg.duplicateCacheTTL)
    (httl3 : cfg.duplicateCacheTTL ≤ now3 - now1)
    (hrec3 : isRecentMessage m.timestamp now1 now3 = true) :
    (handleMessage cfg nfc ⟨start, []⟩ now1 chat m).2 = some ⟨kw, m.text, chat⟩
    ∧ handleMessage cfg nfc (handleMessage cfg nfc ⟨start, []⟩ now1 chat m).1
        now2 chat m
      = ((handleMessage cfg nfc ⟨start, []⟩ now1 chat m).1, none)
    ∧ (handleMessage cfg nfc (handleMessage cfg nfc ⟨start, []⟩ now1 chat m).1
        now3 chat m).2
      = some ⟨kw, m.text, chat⟩
    ∧ ∀ (hashes : HashCache) (now : Int),
        ((isDuplicate cfg hashes now m.text m.timestamp m.messageKey).1 = true ↔
          (isHashRecent cfg.duplicateCacheTTL hashes (fallbackHash m) now = true
           ∨ ∃ mk, m.messageKey = some mk
               ∧ isHashRecent cfg.duplicateCacheTTL hashes (keyHash mk m) now = true)) := by
  obtain ⟨hfresh1, hfreshFb, hfreshKey⟩ := isDuplicate_fresh cfg now1 m hdp
  have h1 : handleMessage cfg nfc ⟨start, []⟩ now1 chat m
      = (⟨now1, (isDuplicate cfg [] now1 m.text m.timestamp m.messageKey).2⟩,
         some ⟨kw, m.text, chat⟩) :=
    handleMessage_detect cfg nfc ⟨start, []⟩ now1 chat m kw htext hrec1 hfresh1 hkw hchat
  have hfb2 : isHashRecent cfg.duplicateCacheTTL
      (isDuplicate cfg [] now1 m.text m.timestamp m.messageKey).2
      (fallbackHash m) now2 = true := by
    simp only [isHashRecent, hfreshFb]
    simpa using httl2
  have hdup2 : (isDuplicate cfg
      (isDuplicate cfg [] now1 m.text m.timestamp m.messageKey).2
      now2 m.text m.timestamp m.messageKey).1 = true := by
    rw [isDuplicate_recent_fb cfg _ now2 m hdp hfb2]
  have h2 : handleMessage cfg nfc
      (⟨now1, (isDuplicate cfg [] now1 m.text m.timestamp m.messageKey).2⟩ : WatcherState)
      now2 chat m
      = (⟨now1, (isDuplicate cfg [] now1 m.text m.timestamp m.messageKey).2⟩, none) :=
    handleMessage_dup cfg nfc _ now2 chat m htext hdup2
  have hfb3 : isHashRecent cfg.duplicateCacheTTL
      (isDuplicate cfg [] now1 m.text m.timestamp m.messageKey).2
      (fallbackHash m) now3 = false := by
    simp only [isHashRecent, hfreshFb]
    simp only [decide_eq_false_iff_not]
    omega
  have hkey3 : ∀ mk, m.messageKey = some mk →
      isHashRecent cfg.duplicateCacheTTL
        (isDuplicate cfg [] now1 m.text m.timestamp m.messageKey).2
        (keyHash mk m) now3 = false := by
    intro mk hmk
    simp only [isHashRecent, hfreshKey mk hmk]
    simp only [decide_eq_false_iff_not]
    omega
  have hdup3 : (isDuplicate cfg
      (isDuplicate cfg [] now1 m.text m.timestamp m.messageKey).2
      now3 m.text m.timestamp m.messageKey).1 = false := by
    rw [Bool.eq_false_iff]
    intro htrue
    rcases (isDuplicate_fst_iff cfg _ now3 m hdp).mp htrue with hl | ⟨mk, hmk, hr⟩
    · rw [hfb3] at hl
      cases hl
    · rw [hkey3 mk hmk] at hr
      cases hr
  have h3 := handleMessage_detect cfg nfc
    (⟨now1, (isDuplicate cfg [] now1 m.text m.timestamp m.messageKey).2⟩ : WatcherState)
    now3 chat m kw htext hrec3 hdup3 hkw hchat
  refine ⟨by rw [h1], ?_, ?_, fun hashes now => isDuplicate_fst_iff cfg hashes now m hdp⟩
  · rw [h1]
    exact h2
  · rw [h1, h3]

set_option maxRecDepth 8000 in
/-- C5 counterexample: with duplicate protection enabled (TTL one hour)
and keyword `b`, feeding the candidate `text = "abc"`,
`timestamp = 59000` into `handleMessage` at time 61000 emits a detection
(and advances the watermark to 61000); feeding the identical candidate
again at time 3700000 — after the TTL expired, with no intervening
sightings of its fingerprints — emits nothing, because the advanced
watermark floors to 60000 and the candidate timestamp 59000 now fails the
recency filter.  This refutes the claim that handing the candidate in
again after TTL expiry yields a second detection event. -/
theorem duplicate_ttl_redetect_cex :
    (handleMessage ⟨true, 3600000, ["b"], false, false, ⟨false, "", []⟩⟩ nfcM
        ⟨0, []⟩ 61000 "X" ⟨"abc", some 59000, none⟩).2
      = some ⟨"b", "abc", "X"⟩
    ∧ (handleMessage ⟨true, 3600000, ["b"], false, false, ⟨false, "", []⟩⟩ nfcM
        (handleMessage ⟨true, 3600000, ["b"], false, false, ⟨false, "", []⟩⟩ nfcM
          ⟨0, []⟩ 61000 "X" ⟨"abc", some 59000, none⟩).1
        3700000 "X" ⟨"abc", some 59000, none⟩).2
      = none := by
  decide

set_option maxRecDepth 8000 in
/-- Witness for C5 (amended) at a concrete run whose candidate timestamp
lies in the same minute as the first detection, so the TTL-expired re-feed
passes the recency filter and re-detects. -/
theorem duplicate_suppression_witness :
    (handleMessage ⟨true, 3600000, ["b"], false, false, ⟨false, "", []⟩⟩ nfcM
        ⟨0, []⟩ 61600 "X" ⟨"abc", some 61500, some "k1"⟩).2
      = some ⟨"b", "abc", "X"⟩ :=
  (duplicate_suppression ⟨true, 3600000, ["b"], false, false, ⟨false, "", []⟩⟩
    nfcM 0 61600 62000 3661600 "X" ⟨"abc", some 61500, some "k1"⟩ "b"
    rfl (by decide) (by decide) (by decide) (by decide) (by decide) (by decide)
    (by decide)).1

end WhatsappAlarm
